import Mathlib

/-!
Verification of the glox tree-walking Lox interpreter.

This file contains a shallow embedding, in Lean 4, of the parts of the
glox interpreter (package `lang` and package `interp`) that the verified
properties are about: the AST, the runtime value representation, the
environment chain, the tree-walking evaluator, the resolver, the for-loop
desugaring performed by the parser, and the top-level run/interpret
driver.

Modelling conventions:

* Go `float64` is modelled by `GoFloat`: either NaN or a rational.
  Infinities and rounding are not modelled; no verified property
  exercises them.  IEEE equality (NaN is not equal to anything,
  including itself) is modelled faithfully.
* Go heap pointers (`*env`, `*loxFunction`, `*loxClass`, `*loxInstance`)
  are modelled as indices into append-only heaps stored in the
  interpreter state `St`.  Pointer equality becomes index equality.
* Go `panic`/`recover` used for `return` and for runtime errors is
  modelled by the result type `Res`: `ret` is the returnValue panic,
  `err` the runtimeError panic.  `Res.crash` models an unrecovered Go
  panic (nil dereference, failed type assertion, index out of range);
  those paths are unreachable for states produced by the interpreter
  itself.  `Res.fuel` reports exhaustion of the step fuel that makes the
  evaluator total; it is a modelling artefact, not a program behaviour.
* The interpreter writes to three output sinks: `outW` models the
  configured output writer `i.out`, `errW` the configured error writer
  `i.errOut`, and `stdW` the process standard output used by a bare
  `fmt.Printf`.
-/

namespace Glox

/-- Token types, from lang/tokens.go (using the Token-suffixed constructor
naming of the current generation of the source). -/
inductive TokenType where
  | LeftParenToken
  | RightParenToken
  | LeftBraceToken
  | RightBraceToken
  | CommaToken
  | DotToken
  | MinusToken
  | PlusToken
  | SemicolonToken
  | SlashToken
  | StarToken
  | BangToken
  | BangEqualToken
  | EqualToken
  | EqualEqualToken
  | GreaterToken
  | GreaterEqualToken
  | LessToken
  | LessEqualToken
  | IdentifierToken
  | StringToken
  | NumberToken
  | AndToken
  | ClassToken
  | ElseToken
  | FalseToken
  | FunToken
  | ForToken
  | IfToken
  | NilToken
  | OrToken
  | PrintToken
  | ReturnToken
  | SuperToken
  | ThisToken
  | TrueToken
  | VarToken
  | WhileToken
  | EndToken
deriving DecidableEq, Repr

/-- A scanned token, from lang/tokens.go: `Token { Type, Lexeme, Literal,
Line }`.  The field `Type` is renamed `ttype` (Lean reserves `Type`). -/
structure Token where
  ttype : TokenType
  lexeme : String
  literal : String
  line : Nat
deriving DecidableEq, Repr

/-- Model of a Go `float64`: NaN or a finite value represented exactly as
a rational.  Infinities and rounding of arithmetic are not modelled; no
verified property exercises them. -/
inductive GoFloat where
  | nan
  | fin (q : ℚ)
deriving DecidableEq, Repr

/-- IEEE equality on float64 (Go `==` on float64 operands): NaN compares
unequal to everything, including itself. -/
def feq : GoFloat → GoFloat → Bool
  | .fin a, .fin b => a == b
  | _, _ => false

/-- Float addition; NaN propagates. -/
def fadd : GoFloat → GoFloat → GoFloat
  | .fin a, .fin b => .fin (a + b)
  | _, _ => .nan

/-- Float subtraction; NaN propagates. -/
def fsub : GoFloat → GoFloat → GoFloat
  | .fin a, .fin b => .fin (a - b)
  | _, _ => .nan

/-- Float multiplication; NaN propagates. -/
def fmul : GoFloat → GoFloat → GoFloat
  | .fin a, .fin b => .fin (a * b)
  | _, _ => .nan

/-- Float division; NaN propagates.  Division by zero yields NaN in the
model (Go would produce an infinity or NaN; no verified property
exercises this case). -/
def fdiv : GoFloat → GoFloat → GoFloat
  | .fin a, .fin b => if b = 0 then .nan else .fin (a / b)
  | _, _ => .nan

/-- Float negation (unary minus); NaN propagates. -/
def fneg : GoFloat → GoFloat
  | .fin a => .fin (-a)
  | .nan => .nan

/-- Float less-than; comparisons involving NaN are false. -/
def flt : GoFloat → GoFloat → Bool
  | .fin a, .fin b => a < b
  | _, _ => false

/-- Float less-or-equal; comparisons involving NaN are false. -/
def fle : GoFloat → GoFloat → Bool
  | .fin a, .fin b => a ≤ b
  | _, _ => false

/-- The display string of a float under Go `%v`.  Whole-valued floats
print without a fractional part (Go drops the ".0" suffix); the precise
shortest-round-trip rendering of non-integer floats is not modelled (no
verified property prints one). -/
def fdisplay : GoFloat → String
  | .nan => "NaN"
  | .fin q => if q.den = 1 then toString q.num else toString q

/-- The literal payload of a `Lit` AST node (Go `Lit.Value interface{}`):
the parser stores nil, a bool, a float64 or a string. -/
inductive LitVal where
  | nilL
  | boolL (b : Bool)
  | numL (x : GoFloat)
  | strL (s : String)
deriving DecidableEq, Repr

/-- A variable-expression node (`lang.VarExpr { Name *Token }`).  The
field `nid` is the node identity used to key the resolution table: Go
keys the table by the node's pointer; following the specification's
design note on identity-keyed resolution tables, the model gives each
resolvable node a unique integer id instead. -/
structure VarE where
  Name : Token
  nid : Nat
deriving DecidableEq, Repr

mutual
/-- Expression AST nodes, from lang/ast.go.  Resolvable nodes
(`VarExpr`, `AssignExpr`, `ThisExpr`, `SuperExpr`) carry a node id `nid`
standing for Go pointer identity (see `VarE`). -/
inductive Expr where
  | Lit (Value : LitVal)
  | GroupingExpr (Expression : Expr)
  | UnaryExpr (Operator : Token) (Expression : Expr)
  | BinaryExpr (LeftExpression : Expr) (Operator : Token) (RightExpression : Expr)
  | LogicalExpr (LeftExpression : Expr) (Operator : Token) (RightExpression : Expr)
  | VarExpr (v : VarE)
  | ThisExpr (Keyword : Token) (nid : Nat)
  | SuperExpr (Keyword : Token) (Method : Token) (nid : Nat)
  | AssignExpr (Name : Token) (Value : Expr) (nid : Nat)
  | CallExpr (Callee : Expr) (Paren : Token) (Arguments : List Expr)
  | GetExpr (Object : Expr) (Name : Token)
  | SetExpr (Object : Expr) (Name : Token) (Value : Expr)

/-- Statement AST nodes, from lang/ast.go. -/
inductive Stmt where
  | ExprStmt (Expression : Expr)
  | PrintStmt (Expression : Expr)
  | VarDeclStmt (Name : Token) (Initializer : Option Expr)
  | BlockStmt (Statements : List Stmt)
  | IfStmt (Condition : Expr) (ThenBranch : Stmt) (ElseBranch : Option Stmt)
  | WhileStmt (Condition : Expr) (Body : Stmt)
  | ReturnStmt (Keyword : Token) (Value : Option Expr)
  | FunDeclStmt (f : FunDecl)
  | ClassDeclStmt (Name : Token) (Superclass : Option VarE) (Methods : List FunDecl)

/-- A function declaration (`lang.FunDeclStmt { Name, Params, Body }`),
shared by `fun` declarations and class methods. -/
inductive FunDecl where
  | mk (Name : Token) (Params : List Token) (Body : List Stmt)
end

/-- Name of a function declaration. -/
def FunDecl.Name : FunDecl → Token
  | .mk n _ _ => n

/-- Parameters of a function declaration. -/
def FunDecl.Params : FunDecl → List Token
  | .mk _ p _ => p

/-- Body of a function declaration. -/
def FunDecl.Body : FunDecl → List Stmt
  | .mk _ _ b => b

/-- A runtime user function (`interp.loxFunction`): declaration, captured
environment (a heap reference) and the is-initializer flag. -/
structure LoxFunction where
  decl : FunDecl
  closure : Nat
  isInitializer : Bool

/-- A runtime class (`interp.loxClass`): name, optional superclass (a
reference into the class heap) and the method table (function heap
references). -/
structure ClassData where
  Name : String
  Superclass : Option Nat
  Methods : List (String × Nat)

/-- A runtime lox value (the Go `interface{}` payloads the interpreter
passes around).  `vint` is a Go `int64` boxed in an interface — it is not
the lox number variant (`vnum`, a float64), but it is what the built-in
`clock` actually returns.  `vfun`, `vclass`, `vinst` are heap
references, so `isEqual` on them is Go pointer equality. -/
inductive Val where
  | vnil
  | vbool (b : Bool)
  | vnum (x : GoFloat)
  | vstr (s : String)
  | vint (n : Int)
  | vclock
  | vfun (r : Nat)
  | vclass (r : Nat)
  | vinst (r : Nat)
deriving DecidableEq, Repr

/-- One environment frame (`interp.env`): a name-to-value table and an
optional enclosing frame (heap reference). -/
structure Frame where
  values : List (String × Val)
  enclosing : Option Nat

/-- A class instance (`interp.loxInstance`): its class (heap reference)
and its mutable field table. -/
structure InstData where
  klass : Nat
  fields : List (String × Val)

/-- The mutable state of the interpreter: the environment, function,
class and instance heaps (Go heap pointers become indices), the three
output sinks, and the ambient Unix time read by `clock`. -/
structure St where
  envs : List Frame
  funs : List LoxFunction
  classes : List ClassData
  insts : List InstData
  outW : List String
  errW : List String
  stdW : List String
  now : Int

/-- The resolution table (`Interp.locals`), keyed by node id. -/
structure Ctx where
  locals : List (Nat × Nat)

/-- Result of evaluating an expression or executing a statement.
`norm` is normal completion; `ret` is the returnValue panic raised by a
return statement; `err` is the runtimeError panic (token and message);
`crash` is an unrecovered Go panic (unreachable in states the
interpreter itself produces); `fuel` is exhaustion of the model's step
fuel. -/
inductive Res (α : Type) where
  | norm (a : α) (st : St)
  | ret (v : Val) (st : St)
  | err (tok : Token) (msg : String) (st : St)
  | crash
  | fuel

/-- Go map assignment `m[k] = v` on an association list: replaces the
binding in place, or appends a new one. -/
def assocSet : List (String × Val) → String → Val → List (String × Val)
  | [], k, v => [(k, v)]
  | (k', v') :: rest, k, v =>
      if k' = k then (k, v) :: rest else (k', v') :: assocSet rest k v

/-- Go map lookup `m[k]` on an association list. -/
def assocGet : List (String × Val) → String → Option Val
  | [], _ => none
  | (k', v') :: rest, k => if k' = k then some v' else assocGet rest k

/-- `newEnv`: allocate a fresh frame with the given enclosing frame and
return its heap reference. -/
def stNewEnv (st : St) (enclosing : Option Nat) : Nat × St :=
  (st.envs.length, { st with envs := st.envs ++ [⟨[], enclosing⟩] })

/-- `env.define`: bind (set or overwrite) a name in one specific frame.
A dangling frame reference leaves the state unchanged (unreachable). -/
def envDefine (st : St) (envId : Nat) (name : String) (v : Val) : St :=
  match st.envs.get? envId with
  | none => st
  | some fr =>
      { st with envs := st.envs.set envId { fr with values := assocSet fr.values name v } }

/-- `env.ancestor`: follow exactly `distance` enclosing links.  `none`
models the nil dereference Go would crash on if the chain is shorter
(unreachable: the resolver guarantees the distance). -/
def envAncestor (st : St) (envId : Nat) : Nat → Option Nat
  | 0 => some envId
  | d + 1 =>
      match st.envs.get? envId with
      | none => none
      | some fr =>
          match fr.enclosing with
          | none => none
          | some up => envAncestor st up d

/-- `env.getAt`: read a name in the frame `distance` levels up.  Returns
`some Val.vnil` when the frame exists but lacks the name (a missing key
in a Go map yields the zero value, a nil interface); returns `none` only
when the frame chain itself is broken (a Go crash, unreachable). -/
def envGetAt (st : St) (envId distance : Nat) (name : String) : Option Val :=
  match envAncestor st envId distance with
  | none => none
  | some fid =>
      match st.envs.get? fid with
      | none => none
      | some fr => some ((assocGet fr.values name).getD .vnil)

/-- `env.assignAt`: write a name in the frame `distance` levels up (Go
map assignment: creates the key if absent).  A broken chain leaves the
state unchanged (a Go crash, unreachable). -/
def envAssignAt (st : St) (envId distance : Nat) (name : String) (v : Val) : St :=
  match envAncestor st envId distance with
  | none => st
  | some fid => envDefine st fid name v

/-- `env.get`: walk the enclosing chain for a name; a missing name is the
runtime error "Undefined variable '<lexeme>'.".  `gas` bounds the walk
(call sites pass the number of frames, which bounds any acyclic
chain). -/
def envGetGas : Nat → St → Nat → Token → Res Val
  | 0, _, _, _ => .crash
  | gas + 1, st, envId, name =>
      match st.envs.get? envId with
      | none => .crash
      | some fr =>
          match assocGet fr.values name.lexeme with
          | some v => .norm v st
          | none =>
              match fr.enclosing with
              | some up => envGetGas gas st up name
              | none => .err name ("Undefined variable '" ++ name.lexeme ++ "'.") st

/-- `env.assign`: walk the enclosing chain and update the first frame
containing the name; a missing name is the runtime error
"Undefined variable '<lexeme>'.". -/
def envAssignGas : Nat → St → Nat → Token → Val → Res Unit
  | 0, _, _, _, _ => .crash
  | gas + 1, st, envId, name, v =>
      match st.envs.get? envId with
      | none => .crash
      | some fr =>
          match assocGet fr.values name.lexeme with
          | some _ =>
              .norm () { st with
                envs := st.envs.set envId { fr with values := assocSet fr.values name.lexeme v } }
          | none =>
              match fr.enclosing with
              | some up => envAssignGas gas st up name v
              | none => .err name ("Undefined variable '" ++ name.lexeme ++ "'.") st

/-- `isTruthy`: false and nil are falsey, everything else is truthy. -/
def isTruthy : Val → Bool
  | .vnil => false
  | .vbool b => b
  | _ => true

/-- `isEqual`: Go `==` on two interface values: equal dynamic types and
equal payloads.  Number payloads use IEEE equality (NaN is unequal to
itself); function, class and instance payloads are pointers, hence heap
reference equality. -/
def isEqual : Val → Val → Bool
  | .vnil, .vnil => true
  | .vbool a, .vbool b => a == b
  | .vnum a, .vnum b => feq a b
  | .vstr a, .vstr b => a == b
  | .vint a, .vint b => a == b
  | .vclock, .vclock => true
  | .vfun a, .vfun b => a == b
  | .vclass a, .vclass b => a == b
  | .vinst a, .vinst b => a == b
  | _, _ => false

/-- The dynamic-type tag of a value (which Go type the interface box
holds); `isEqual` can only be true on matching tags. -/
def Val.kindTag : Val → Nat
  | .vnil => 0
  | .vbool _ => 1
  | .vnum _ => 2
  | .vstr _ => 3
  | .vint _ => 4
  | .vclock => 5
  | .vfun _ => 6
  | .vclass _ => 7
  | .vinst _ => 8

/-- `isNumber`: the interface holds a float64. -/
def isNumber : Val → Bool
  | .vnum _ => true
  | _ => false

/-- `isString`: the interface holds a string. -/
def isString : Val → Bool
  | .vstr _ => true
  | _ => false

/-- `toNumber`: the float64 type assertion with the runtime error
"Operand must be a number." on failure (a Go `int64`, as returned by the
built-in clock, also fails this assertion). -/
def toNumber (operator : Token) (operand : Val) (st : St) : Res GoFloat :=
  match operand with
  | .vnum x => .norm x st
  | _ => .err operator "Operand must be a number." st

/-- The value of a `Lit` node. -/
def litToVal : LitVal → Val
  | .nilL => .vnil
  | .boolL b => .vbool b
  | .numL x => .vnum x
  | .strL s => .vstr s

/-- `findMethod`: walk the class, then its superclass chain, for a method
name; the first hit wins.  `gas` bounds the walk (call sites pass the
number of classes, which bounds any acyclic chain). -/
def findMethod : Nat → St → Nat → String → Option Nat
  | 0, _, _, _ => none
  | gas + 1, st, cref, name =>
      match st.classes.get? cref with
      | none => none
      | some cd =>
          match cd.Methods.lookup name with
          | some m => some m
          | none =>
              match cd.Superclass with
              | some up => findMethod gas st up name
              | none => none

/-- `loxFunction.bind`: a new function with the same declaration but a
fresh one-slot environment binding "this" to the instance, keeping the
is-initializer flag. -/
def bindFun (st : St) (f : LoxFunction) (inst : Nat) : LoxFunction × St :=
  let (eid, st₁) := stNewEnv st (some f.closure)
  let st₂ := envDefine st₁ eid "this" (.vinst inst)
  (⟨f.decl, eid, f.isInitializer⟩, st₂)

/-- Allocate a function value on the heap (Go `&loxFunction{...}`). -/
def allocFun (st : St) (f : LoxFunction) : Nat × St :=
  (st.funs.length, { st with funs := st.funs ++ [f] })

/-- `loxInstance.set`: assign a field (Go map assignment — always
succeeds, creating the field if absent).  A dangling instance reference
leaves the state unchanged (unreachable). -/
def instSetField (st : St) (r : Nat) (name : String) (v : Val) : St :=
  match st.insts.get? r with
  | none => st
  | some inst =>
      { st with insts := st.insts.set r { inst with fields := assocSet inst.fields name v } }

/-- `loxInstance.get`: a field if present (fields shadow methods), else a
method of the class chain bound to the instance, else the runtime error
"Undefined field or method '<name>'.". -/
def instanceGet (st : St) (r : Nat) (name : Token) : Res Val :=
  match st.insts.get? r with
  | .none => .crash
  | .some inst =>
      match assocGet inst.fields name.lexeme with
      | some v => .norm v st
      | none =>
          match findMethod (st.classes.length + 1) st inst.klass name.lexeme with
          | some mref =>
              match st.funs.get? mref with
              | none => .crash
              | some f =>
                  let (g, st₁) := bindFun st f r
                  let (gr, st₂) := allocFun st₁ g
                  .norm (.vfun gr) st₂
          | none =>
              .err name ("Undefined field or method '" ++ name.lexeme ++ "'.") st

/-- `toString`: implicit conversion to string used by the `+` operator.
`none` models the default-case Go panic on an unexpected type (a Go
int64 or the clock built-in — unreachable through `+` because neither
passes `isNumber`/`isString`, but part of the function's domain). -/
def toStringV (st : St) (v : Val) : Option String :=
  match v with
  | .vnil => some "nil"
  | .vstr s => some s
  | .vnum x => some (fdisplay x)
  | .vbool b => some (if b then "true" else "false")
  | .vfun r =>
      match st.funs.get? r with
      | some f => some ("<fun " ++ f.decl.Name.lexeme ++ ">")
      | none => none
  | .vclass r =>
      match st.classes.get? r with
      | some cd => some ("<class " ++ cd.Name ++ ">")
      | none => none
  | .vinst r =>
      match st.insts.get? r with
      | some inst =>
          match st.classes.get? inst.klass with
          | some cd => some ("<instance " ++ cd.Name ++ ">")
          | none => none
      | none => none
  | _ => none

/-- `stringify`: the display string of a value as printed by `print` and
the REPL (`fmt.Sprintf %v`, which consults the String() methods of
functions, classes and instances and prints int64 in decimal).  Dangling
references render as "<invalid>" (unreachable). -/
def stringify (st : St) (v : Val) : String :=
  match v with
  | .vnil => "nil"
  | .vint n => toString n
  | .vclock => "<native fn>"
  | _ => (toStringV st v).getD "<invalid>"

/-- `lookupVariable`: if the resolver recorded a distance for this node,
read at that distance from the current environment; otherwise read from
the globals frame (heap reference 0), with the runtime error
"Undefined variable '<name>'." when absent there. -/
def lookupVariable (ctx : Ctx) (envId : Nat) (st : St) (name : Token) (nid : Nat) : Res Val :=
  match ctx.locals.lookup nid with
  | some distance =>
      match envGetAt st envId distance name.lexeme with
      | some v => .norm v st
      | none => .crash
  | none => envGetGas (st.envs.length + 1) st 0 name

/-- `assignVariable`: if the resolver recorded a distance for this node,
write at that distance; otherwise assign in the globals frame, with the
runtime error "Undefined variable '<name>'." when absent there. -/
def assignVariable (ctx : Ctx) (envId : Nat) (st : St) (name : Token) (nid : Nat) (v : Val) :
    Res Unit :=
  match ctx.locals.lookup nid with
  | some distance => .norm () (envAssignAt st envId distance name.lexeme v)
  | none => envAssignGas (st.envs.length + 1) st 0 name v

/-- `clock.call` (interp/lib.go): returns `time.Now().Unix()` — a Go
int64 number of Unix seconds, boxed as an interface value. -/
def clockCall (st : St) : Res Val :=
  .norm (.vint st.now) st

/-- Bind the parameters of a function call in its fresh environment
(the Go loop `for i := range params { env.define(params[i], args[i]) }`).
`none` models the index-out-of-range Go panic when fewer arguments than
parameters are supplied (unreachable: the caller checks arity first). -/
def bindParams (st : St) (envId : Nat) : List Token → List Val → Option St
  | [], _ => some st
  | _ :: _, [] => none
  | p :: ps, a :: as => bindParams (envDefine st envId p.lexeme a) envId ps as

/-- The arity of a class: its initializer's arity, or zero without one
(`loxClass.arity`).  `none` models a dangling method reference (a Go
crash, unreachable). -/
def classArity (st : St) (cref : Nat) : Option Nat :=
  match findMethod (st.classes.length + 1) st cref "init" with
  | some mref =>
      match st.funs.get? mref with
      | some f => some f.decl.Params.length
      | none => none
  | none => some 0

/-- Build the method table of a class declaration: allocate one
`loxFunction` per method, capturing the method environment, with the
is-initializer flag set for a method named "init". -/
def allocMethods (st : St) (menv : Nat) : List FunDecl → (List (String × Nat) × St)
  | [] => ([], st)
  | m :: rest =>
      let (fr, st₁) := allocFun st ⟨m, menv, m.Name.lexeme == "init"⟩
      let (table, st₂) := allocMethods st₁ menv rest
      ((m.Name.lexeme, fr) :: table, st₂)

/-- The tail of `executeClassDeclStmt` after the superclass value was
checked: define the name as nil, open the `super` frame when a
superclass is present, build the method table, build the class value and
assign it to the name. -/
def classDeclTail (envId : Nat) (st : St) (name : Token)
    (superRef : Option Nat) (methods : List FunDecl) : Res Unit :=
  let st₁ := envDefine st envId name.lexeme .vnil
  let (menv, st₂) :=
    match superRef with
    | some scref =>
        let (eid, stA) := stNewEnv st₁ (some envId)
        (eid, envDefine stA eid "super" (.vclass scref))
    | none => (envId, st₁)
  let (mtable, st₃) := allocMethods st₂ menv methods
  let cref := st₃.classes.length
  let st₄ := { st₃ with classes := st₃.classes ++ [⟨name.lexeme, superRef, mtable⟩] }
  match envAssignGas (st₄.envs.length + 1) st₄ envId name (.vclass cref) with
  | .norm _ st₅ => .norm () st₅
  | .ret v s₁ => .ret v s₁
  | .err t m s₁ => .err t m s₁
  | .crash => .crash
  | .fuel => .fuel

/-- The operator dispatch of `Interp.evaluateBinary`, after both operands
were evaluated. -/
def evaluateBinaryOp (op : Token) (left right : Val) (st : St) : Res Val :=
  match op.ttype with
  | .MinusToken =>
      match toNumber op left st with
      | .norm a st₁ =>
          match toNumber op right st₁ with
          | .norm b st₂ => .norm (.vnum (fsub a b)) st₂
          | .ret v s => .ret v s
          | .err t m s => .err t m s
          | .crash => .crash
          | .fuel => .fuel
      | .ret v s => .ret v s
      | .err t m s => .err t m s
      | .crash => .crash
      | .fuel => .fuel
  | .SlashToken =>
      match toNumber op left st with
      | .norm a st₁ =>
          match toNumber op right st₁ with
          | .norm b st₂ => .norm (.vnum (fdiv a b)) st₂
          | .ret v s => .ret v s
          | .err t m s => .err t m s
          | .crash => .crash
          | .fuel => .fuel
      | .ret v s => .ret v s
      | .err t m s => .err t m s
      | .crash => .crash
      | .fuel => .fuel
  | .StarToken =>
      match toNumber op left st with
      | .norm a st₁ =>
          match toNumber op right st₁ with
          | .norm b st₂ => .norm (.vnum (fmul a b)) st₂
          | .ret v s => .ret v s
          | .err t m s => .err t m s
          | .crash => .crash
          | .fuel => .fuel
      | .ret v s => .ret v s
      | .err t m s => .err t m s
      | .crash => .crash
      | .fuel => .fuel
  | .PlusToken =>
      if isNumber left && isNumber right then
        match left, right with
        | .vnum a, .vnum b => .norm (.vnum (fadd a b)) st
        | _, _ => .crash
      else if isString left || isString right then
        match toStringV st left with
        | some sa =>
            match toStringV st right with
            | some sb => .norm (.vstr (sa ++ sb)) st
            | none => .crash
        | none => .crash
      else .err op "Operands must be two numbers or at least one string." st
  | .GreaterToken =>
      match toNumber op left st with
      | .norm a st₁ =>
          match toNumber op right st₁ with
          | .norm b st₂ => .norm (.vbool (flt b a)) st₂
          | .ret v s => .ret v s
          | .err t m s => .err t m s
          | .crash => .crash
          | .fuel => .fuel
      | .ret v s => .ret v s
      | .err t m s => .err t m s
      | .crash => .crash
      | .fuel => .fuel
  | .GreaterEqualToken =>
      match toNumber op left st with
      | .norm a st₁ =>
          match toNumber op right st₁ with
          | .norm b st₂ => .norm (.vbool (fle b a)) st₂
          | .ret v s => .ret v s
          | .err t m s => .err t m s
          | .crash => .crash
          | .fuel => .fuel
      | .ret v s => .ret v s
      | .err t m s => .err t m s
      | .crash => .crash
      | .fuel => .fuel
  | .LessToken =>
      match toNumber op left st with
      | .norm a st₁ =>
          match toNumber op right st₁ with
          | .norm b st₂ => .norm (.vbool (flt a b)) st₂
          | .ret v s => .ret v s
          | .err t m s => .err t m s
          | .crash => .crash
          | .fuel => .fuel
      | .ret v s => .ret v s
      | .err t m s => .err t m s
      | .crash => .crash
      | .fuel => .fuel
  | .LessEqualToken =>
      match toNumber op left st with
      | .norm a st₁ =>
          match toNumber op right st₁ with
          | .norm b st₂ => .norm (.vbool (fle a b)) st₂
          | .ret v s => .ret v s
          | .err t m s => .err t m s
          | .crash => .crash
          | .fuel => .fuel
      | .ret v s => .ret v s
      | .err t m s => .err t m s
      | .crash => .crash
      | .fuel => .fuel
  | .BangEqualToken => .norm (.vbool (!isEqual left right)) st
  | .EqualEqualToken => .norm (.vbool (isEqual left right)) st
  | _ => .norm .vnil st

mutual
/-- `Interp.evaluate` (with the per-node `evaluateX` helpers inlined as
match cases): evaluate an expression in the current environment. -/
def evaluate : Nat → Ctx → Nat → St → Expr → Res Val
  | 0, _, _, _, _ => .fuel
  | fl + 1, ctx, envId, st, e =>
      match e with
      | .Lit v => .norm (litToVal v) st
      | .GroupingExpr inner => evaluate fl ctx envId st inner
      | .UnaryExpr op inner =>
          match evaluate fl ctx envId st inner with
          | .norm right st₁ =>
              match op.ttype with
              | .MinusToken =>
                  match toNumber op right st₁ with
                  | .norm x st₂ => .norm (.vnum (fneg x)) st₂
                  | .ret v s => .ret v s
                  | .err t m s => .err t m s
                  | .crash => .crash
                  | .fuel => .fuel
              | .BangToken => .norm (.vbool (!isTruthy right)) st₁
              | _ => .norm .vnil st₁
          | other => other
      | .BinaryExpr l op r =>
          match evaluate fl ctx envId st l with
          | .norm left st₁ =>
              match evaluate fl ctx envId st₁ r with
              | .norm right st₂ => evaluateBinaryOp op left right st₂
              | other => other
          | other => other
      | .LogicalExpr l op r =>
          match evaluate fl ctx envId st l with
          | .norm left st₁ =>
              match op.ttype with
              | .OrToken =>
                  if isTruthy left then .norm left st₁
                  else evaluate fl ctx envId st₁ r
              | .AndToken =>
                  if !isTruthy left then .norm left st₁
                  else evaluate fl ctx envId st₁ r
              | _ => .crash
          | other => other
      | .VarExpr v => lookupVariable ctx envId st v.Name v.nid
      | .ThisExpr kw nid => lookupVariable ctx envId st kw nid
      | .SuperExpr _ method nid =>
          let distance := (ctx.locals.lookup nid).getD 0
          match envGetAt st envId distance "super" with
          | none => .crash
          | some sv =>
              match sv with
              | .vclass scref =>
                  match envGetAt st envId (distance - 1) "this" with
                  | none => .crash
                  | some tv =>
                      match tv with
                      | .vinst r =>
                          match findMethod (st.classes.length + 1) st scref method.lexeme with
                          | some mref =>
                              match st.funs.get? mref with
                              | none => .crash
                              | some f =>
                                  let (g, st₁) := bindFun st f r
                                  let (gr, st₂) := allocFun st₁ g
                                  .norm (.vfun gr) st₂
                          | none =>
                              .err method
                                ("Undefined method '" ++ method.lexeme ++ "'.") st
                      | _ => .crash
              | _ => .crash
      | .AssignExpr name value nid =>
          match evaluate fl ctx envId st value with
          | .norm v st₁ =>
              match assignVariable ctx envId st₁ name nid v with
              | .norm _ st₂ => .norm v st₂
              | .ret w s => .ret w s
              | .err t m s => .err t m s
              | .crash => .crash
              | .fuel => .fuel
          | other => other
      | .CallExpr callee paren args =>
          match evaluate fl ctx envId st callee with
          | .norm calleeVal st₁ =>
              match evalArgs fl ctx envId st₁ args with
              | .norm arguments st₂ =>
                  match calleeVal with
                  | .vclock =>
                      if arguments.length ≠ 0 then
                        .err paren ("Expected 0 arguments but got " ++
                          toString arguments.length ++ ".") st₂
                      else clockCall st₂
                  | .vfun fr =>
                      match st₂.funs.get? fr with
                      | none => .crash
                      | some f =>
                          if arguments.length ≠ f.decl.Params.length then
                            .err paren ("Expected " ++ toString f.decl.Params.length ++
                              " arguments but got " ++ toString arguments.length ++ ".") st₂
                          else callFunction fl ctx st₂ f arguments
                  | .vclass cref =>
                      match classArity st₂ cref with
                      | none => .crash
                      | some n =>
                          if arguments.length ≠ n then
                            .err paren ("Expected " ++ toString n ++
                              " arguments but got " ++ toString arguments.length ++ ".") st₂
                          else callClass fl ctx st₂ cref arguments
                  | _ => .err paren "Can only call functions and classes." st₂
              | .ret v s₁ => .ret v s₁
              | .err t m s₁ => .err t m s₁
              | .crash => .crash
              | .fuel => .fuel
          | other => other
      | .GetExpr obj name =>
          match evaluate fl ctx envId st obj with
          | .norm o st₁ =>
              match o with
              | .vinst r => instanceGet st₁ r name
              | _ => .err name "Only class instances have fields." st₁
          | other => other
      | .SetExpr obj name value =>
          match evaluate fl ctx envId st obj with
          | .norm o st₁ =>
              match o with
              | .vinst r =>
                  match evaluate fl ctx envId st₁ value with
                  | .norm v st₂ => .norm v (instSetField st₂ r name.lexeme v)
                  | other => other
              | _ => .err name "Only class instances have fields." st₁
          | other => other

termination_by structural fl => fl
/-- Evaluate call arguments left-to-right (the loop in
`Interp.evaluateCall`). -/
def evalArgs : Nat → Ctx → Nat → St → List Expr → Res (List Val)
  | 0, _, _, _, _ => .fuel
  | _ + 1, _, _, st, [] => .norm [] st
  | fl + 1, ctx, envId, st, a :: rest =>
      match evaluate fl ctx envId st a with
      | .norm v st₁ =>
          match evalArgs fl ctx envId st₁ rest with
          | .norm vs st₂ => .norm (v :: vs) st₂
          | other => other
      | .ret v s => .ret v s
      | .err t m s => .err t m s
      | .crash => .crash
      | .fuel => .fuel

termination_by structural fl => fl
/-- `Interp.execute` (with the per-node `executeX` helpers inlined as
match cases): execute one statement in the current environment. -/
def execute : Nat → Ctx → Nat → St → Stmt → Res Unit
  | 0, _, _, _, _ => .fuel
  | fl + 1, ctx, envId, st, s =>
      match s with
      | .ExprStmt e =>
          match evaluate fl ctx envId st e with
          | .norm _ st₁ => .norm () st₁
          | .ret v s₁ => .ret v s₁
          | .err t m s₁ => .err t m s₁
          | .crash => .crash
          | .fuel => .fuel
      | .PrintStmt e =>
          match evaluate fl ctx envId st e with
          | .norm v st₁ =>
              .norm () { st₁ with outW := st₁.outW ++ [stringify st₁ v ++ "\n"] }
          | .ret v s₁ => .ret v s₁
          | .err t m s₁ => .err t m s₁
          | .crash => .crash
          | .fuel => .fuel
      | .VarDeclStmt name initializer =>
          match initializer with
          | some e =>
              match evaluate fl ctx envId st e with
              | .norm v st₁ => .norm () (envDefine st₁ envId name.lexeme v)
              | .ret v s₁ => .ret v s₁
              | .err t m s₁ => .err t m s₁
              | .crash => .crash
              | .fuel => .fuel
          | none => .norm () (envDefine st envId name.lexeme .vnil)
      | .BlockStmt stmts =>
          let (bid, st₁) := stNewEnv st (some envId)
          execStmts fl ctx bid st₁ stmts
      | .IfStmt cond thenB elseB =>
          match evaluate fl ctx envId st cond with
          | .norm c st₁ =>
              if isTruthy c then execute fl ctx envId st₁ thenB
              else
                match elseB with
                | some eb => execute fl ctx envId st₁ eb
                | none => .norm () st₁
          | .ret v s₁ => .ret v s₁
          | .err t m s₁ => .err t m s₁
          | .crash => .crash
          | .fuel => .fuel
      | .WhileStmt cond body =>
          match evaluate fl ctx envId st cond with
          | .norm c st₁ =>
              if isTruthy c then
                match execute fl ctx envId st₁ body with
                | .norm _ st₂ => execute fl ctx envId st₂ (.WhileStmt cond body)
                | .ret v s₁ => .ret v s₁
                | .err t m s₁ => .err t m s₁
                | .crash => .crash
                | .fuel => .fuel
              else .norm () st₁
          | .ret v s₁ => .ret v s₁
          | .err t m s₁ => .err t m s₁
          | .crash => .crash
          | .fuel => .fuel
      | .ReturnStmt _ value =>
          match value with
          | some e =>
              match evaluate fl ctx envId st e with
              | .norm v st₁ => .ret v st₁
              | .ret v s₁ => .ret v s₁
              | .err t m s₁ => .err t m s₁
              | .crash => .crash
              | .fuel => .fuel
          | none => .ret .vnil st
      | .FunDeclStmt f =>
          let (fr, st₁) := allocFun st ⟨f, envId, false⟩
          .norm () (envDefine st₁ envId f.Name.lexeme (.vfun fr))
      | .ClassDeclStmt name superclass methods =>
          match superclass with
          | some sv =>
              match evaluate fl ctx envId st (.VarExpr sv) with
              | .norm scv st₁ =>
                  match scv with
                  | .vclass scref => classDeclTail envId st₁ name (some scref) methods
                  | _ => .err sv.Name "Superclass must be a class." st₁
              | .ret v s₁ => .ret v s₁
              | .err t m s₁ => .err t m s₁
              | .crash => .crash
              | .fuel => .fuel
          | none => classDeclTail envId st name none methods

termination_by structural fl => fl
/-- Execute a statement list in a given environment
(`Interp.executeBlockStmt`; the caller's environment is restored
automatically because the current environment is a parameter). -/
def execStmts : Nat → Ctx → Nat → St → List Stmt → Res Unit
  | 0, _, _, _, _ => .fuel
  | _ + 1, _, _, st, [] => .norm () st
  | fl + 1, ctx, envId, st, s :: rest =>
      match execute fl ctx envId st s with
      | .norm _ st₁ => execStmts fl ctx envId st₁ rest
      | .ret v s₁ => .ret v s₁
      | .err t m s₁ => .err t m s₁
      | .crash => .crash
      | .fuel => .fuel

termination_by structural fl => fl
/-- `loxFunction.call`: run the body in a fresh environment chained to
the captured closure; a returnValue unwind yields its value, natural
fall-off yields nil — except that an initializer always yields the
"this" binding of its closure frame. -/
def callFunction : Nat → Ctx → St → LoxFunction → List Val → Res Val
  | 0, _, _, _, _ => .fuel
  | fl + 1, ctx, st, f, args =>
      let (envId, st₁) := stNewEnv st (some f.closure)
      match bindParams st₁ envId f.decl.Params args with
      | none => .crash
      | some st₂ =>
          match execStmts fl ctx envId st₂ f.decl.Body with
          | .norm _ st₃ =>
              if f.isInitializer then
                match envGetAt st₃ f.closure 0 "this" with
                | some v => .norm v st₃
                | none => .crash
              else .norm .vnil st₃
          | .ret v st₃ =>
              if f.isInitializer then
                match envGetAt st₃ f.closure 0 "this" with
                | some w => .norm w st₃
                | none => .crash
              else .norm v st₃
          | .err t m s₁ => .err t m s₁
          | .crash => .crash
          | .fuel => .fuel

termination_by structural fl => fl
/-- `loxClass.call`: create an instance; when the class chain has an
`init` method, bind it to the instance and invoke it with the call's
arguments; return the instance. -/
def callClass : Nat → Ctx → St → Nat → List Val → Res Val
  | 0, _, _, _, _ => .fuel
  | fl + 1, ctx, st, cref, args =>
      let r := st.insts.length
      let st₁ := { st with insts := st.insts ++ [⟨cref, []⟩] }
      match findMethod (st₁.classes.length + 1) st₁ cref "init" with
      | some mref =>
          match st₁.funs.get? mref with
          | none => .crash
          | some init =>
              let (g, st₂) := bindFun st₁ init r
              match callFunction fl ctx st₂ g args with
              | .norm _ st₃ => .norm (.vinst r) st₃
              | .ret v s₁ => .ret v s₁
              | .err t m s₁ => .err t m s₁
              | .crash => .crash
              | .fuel => .fuel
      | none => .norm (.vinst r) st₁
termination_by structural fl => fl
end

/-- The interpreter instance (`interp.Interp`): its mutable state and the
two error flags.  The globals frame is heap reference 0 and the current
environment is passed explicitly, so only the flags and the state remain
here. -/
structure Interp where
  st : St
  hadCompileError : Bool
  hadRuntimeError : Bool

/-- `Interp.interpret`: execute the statements in order; a runtimeError
panic is recovered at this level, printed with a bare `fmt.Printf` —
which writes to the process standard output (`stdW`), not to the
configured error writer — in the format "msg newline [line N]", the
runtime-error flag is set, and the remaining statements of this run are
skipped.  `none` models fuel exhaustion or a Go crash (a returnValue
panic reaching this level fails the recover's type assertion). -/
def interpret (fl : Nat) (ctx : Ctx) : Interp → List Stmt → Option Interp
  | i, [] => some i
  | i, s :: rest =>
      match execute fl ctx 0 i.st s with
      | .norm _ st₁ => interpret fl ctx { i with st := st₁ } rest
      | .err t m st₁ =>
          some { i with
                 hadRuntimeError := true
                 st := { st₁ with
                   stdW := st₁.stdW ++ [m ++ "\n[line " ++ toString t.line ++ "]\n"] } }
      | .ret _ _ => none
      | .crash => none
      | .fuel => none

/-- The desugaring tail of `Parser.forStatement` (src/lang/parser.go and
src/unnamed/part_008, lines 205-223): the parsed clauses are rewritten
into while-loop form.  Each wrapping step is guarded by presence of the
corresponding clause; in particular, when the condition clause is absent
no `WhileStmt` is built at all. -/
def forDesugar (initializer : Option Stmt) (condition : Option Expr)
    (increment : Option Expr) (body : Stmt) : Stmt :=
  let body₁ :=
    match increment with
    | some inc => Stmt.BlockStmt [body, .ExprStmt inc]
    | none => body
  let body₂ :=
    match condition with
    | some c => Stmt.WhileStmt c body₁
    | none => body₁
  match initializer with
  | some ini => Stmt.BlockStmt [ini, body₂]
  | none => body₂

/-- The for-loop desugaring in the words of the specification: the three
clauses become an initializer block wrapping a `While` whose body is the
original statement followed by the increment, and a missing condition
becomes the literal `true`. -/
def forDesugarSpec (initializer : Option Stmt) (condition : Option Expr)
    (increment : Option Expr) (body : Stmt) : Stmt :=
  let body₁ :=
    match increment with
    | some inc => Stmt.BlockStmt [body, .ExprStmt inc]
    | none => body
  let cond :=
    match condition with
    | some c => c
    | none => Expr.Lit (.boolL true)
  let body₂ := Stmt.WhileStmt cond body₁
  match initializer with
  | some ini => Stmt.BlockStmt [ini, body₂]
  | none => body₂

/-- The function-context state of the resolver
(src/unnamed/part_000 `functionScope`). -/
inductive FunctionScopeT where
  | outsideFunction
  | inFunction
  | inMethod
  | inInitializer
deriving DecidableEq, Repr

/-- The class-context state of the resolver (src/unnamed/part_000
`classScope`, extended with the subclass state the specification
requires for `super` checking). -/
inductive ClassScopeT where
  | outsideClass
  | inClass
  | inSubclass
deriving DecidableEq, Repr

/-- The state of the resolver (`interp.Resolver`): the scope stack
(innermost scope first; each scope maps a name to declared=false /
defined=true), the resolution table it feeds to the interpreter, the two
context states, the error flag and the error sink. -/
structure RState where
  scopes : List (List (String × Bool))
  locals : List (Nat × Nat)
  currentFunctionScope : FunctionScopeT
  currentClassScope : ClassScopeT
  hadError : Bool
  errW : List String

/-- `Resolver.reportError`: emit a compile diagnostic
"[line N] Error at '<lexeme>': <msg>" (or "at end" for the end-of-stream
token) and set the error flag. -/
def reportError (s : RState) (token : Token) (msg : String) : RState :=
  let wh := if token.ttype = .EndToken then "at end" else "at '" ++ token.lexeme ++ "'"
  { s with
    hadError := true
    errW := s.errW ++
      ["[line " ++ toString token.line ++ "] Error " ++ wh ++ ": " ++ msg ++ "\n"] }

/-- Set a name in a scope table (Go map assignment on a scope). -/
def scopeSet : List (String × Bool) → String → Bool → List (String × Bool)
  | [], k, v => [(k, v)]
  | (k', v') :: rest, k, v =>
      if k' = k then (k, v) :: rest else (k', v') :: scopeSet rest k v

/-- `Resolver.beginScope`: push a fresh innermost scope. -/
def beginScope (s : RState) : RState :=
  { s with scopes := [] :: s.scopes }

/-- `Resolver.endScope`: pop the innermost scope. -/
def endScope (s : RState) : RState :=
  { s with scopes := s.scopes.tail }

/-- `Resolver.declare`: record the name in the innermost scope as
declared-but-uninitialized; an existing entry is the compile error
"Variable already declared in this scope.".  A no-op at global level
(empty scope stack). -/
def declare (s : RState) (name : Token) : RState :=
  match s.scopes with
  | [] => s
  | sc :: rest =>
      let s₁ :=
        if (sc.lookup name.lexeme).isSome then
          reportError s name "Variable already declared in this scope."
        else s
      { s₁ with scopes := scopeSet sc name.lexeme false :: rest }

/-- `Resolver.define`: mark the name as defined in the innermost scope.
A no-op at global level. -/
def defineName (s : RState) (name : Token) : RState :=
  match s.scopes with
  | [] => s
  | sc :: rest => { s with scopes := scopeSet sc name.lexeme true :: rest }

/-- Bind a pseudo-variable ("this" or "super") directly in the innermost
scope. -/
def bindInScope (s : RState) (n : String) : RState :=
  match s.scopes with
  | [] => s
  | sc :: rest => { s with scopes := scopeSet sc n true :: rest }

/-- The scope distance of a name: index of the innermost scope containing
it, if any. -/
def findScopeDepth : List (List (String × Bool)) → String → Option Nat
  | [], _ => none
  | sc :: rest, n =>
      if (sc.lookup n).isSome then some 0
      else (findScopeDepth rest n).map (· + 1)

/-- `Resolver.resolveLocal` together with `Interp.resolve`: record the
scope distance of this use of a name in the resolution table; leave it
unresolved (global) when no scope contains the name. -/
def resolveLocal (s : RState) (nid : Nat) (name : Token) : RState :=
  match findScopeDepth s.scopes name.lexeme with
  | some d => { s with locals := (nid, d) :: s.locals }
  | none => s

/-- Modelled from the spec: the superclass part of the resolver's
class-declaration handling, which is missing from the resolver sources
under src/ (only its tests and its interpreter callers are present).
Per the specification: "if `superclass` present, verify its name differs
from the class name ('A class can't inherit from itself.'); if present,
enter subclass context, open an extra scope binding `super`". -/
def resolveSuperclassPart (s : RState) (name : Token) (superclass : Option VarE) : RState :=
  match superclass with
  | some sv =>
      let s₁ :=
        if sv.Name.lexeme = name.lexeme then
          reportError s sv.Name "A class can't inherit from itself."
        else s
      let s₂ := { s₁ with currentClassScope := .inSubclass }
      bindInScope (beginScope s₂) "super"
  | none => s

mutual
/-- `Resolver.resolve` on a statement list. -/
def resolveStmts : Nat → RState → List Stmt → RState
  | 0, s, _ => s
  | _ + 1, s, [] => s
  | fl + 1, s, st :: rest => resolveStmts fl (resolveStmt fl s st) rest

termination_by structural fl => fl
/-- `Resolver.resolveStmt` (with the per-node helpers of
src/unnamed/part_000 inlined as match cases).  The superclass handling
of class declarations is absent from the resolver sources under src/ and
is modelled from the specification; see `resolveSuperclassPart`. -/
def resolveStmt : Nat → RState → Stmt → RState
  | 0, s, _ => s
  | fl + 1, s, stmt =>
      match stmt with
      | .ExprStmt e => resolveExpr fl s e
      | .PrintStmt e => resolveExpr fl s e
      | .ReturnStmt kw value =>
          let s₁ :=
            if s.currentFunctionScope = .outsideFunction then
              reportError s kw "Can't return from top-level code."
            else s
          let s₂ :=
            if s₁.currentFunctionScope = .inInitializer && value.isSome then
              reportError s₁ kw "Can't return a value from an initializer"
            else s₁
          match value with
          | some e => resolveExpr fl s₂ e
          | none => s₂
      | .IfStmt cond thenB elseB =>
          let s₁ := resolveExpr fl s cond
          let s₂ := resolveStmt fl s₁ thenB
          match elseB with
          | some eb => resolveStmt fl s₂ eb
          | none => s₂
      | .WhileStmt cond body => resolveStmt fl (resolveExpr fl s cond) body
      | .VarDeclStmt name initializer =>
          let s₁ := declare s name
          let s₂ :=
            match initializer with
            | some e => resolveExpr fl s₁ e
            | none => s₁
          defineName s₂ name
      | .BlockStmt stmts => endScope (resolveStmts fl (beginScope s) stmts)
      | .FunDeclStmt f =>
          let s₁ := defineName (declare s f.Name) f.Name
          resolveFunction fl s₁ f .inFunction
      | .ClassDeclStmt name superclass methods =>
          let enclosing := s.currentClassScope
          let s₁ := { s with currentClassScope := .inClass }
          let s₂ := defineName (declare s₁ name) name
          let s₃ := resolveSuperclassPart s₂ name superclass
          let s₄ := bindInScope (beginScope s₃) "this"
          let s₅ := resolveMethods fl s₄ methods
          let s₆ := endScope s₅
          let s₇ :=
            match superclass with
            | some _ => endScope s₆
            | none => s₆
          { s₇ with currentClassScope := enclosing }

termination_by structural fl => fl
/-- Resolve the methods of a class declaration: each is walked as a
function with context `inMethod`, or `inInitializer` when named
"init". -/
def resolveMethods : Nat → RState → List FunDecl → RState
  | 0, s, _ => s
  | _ + 1, s, [] => s
  | fl + 1, s, m :: rest =>
      let declaration : FunctionScopeT :=
        if m.Name.lexeme = "init" then .inInitializer else .inMethod
      resolveMethods fl (resolveFunction fl s m declaration) rest

termination_by structural fl => fl
/-- `Resolver.resolveFunction`: enter the function context, open a scope,
declare and define each parameter, walk the body, close the scope and
restore the context. -/
def resolveFunction : Nat → RState → FunDecl → FunctionScopeT → RState
  | 0, s, _, _ => s
  | fl + 1, s, f, newScope =>
      let enclosing := s.currentFunctionScope
      let s₁ := { s with currentFunctionScope := newScope }
      let s₂ := f.Params.foldl (fun acc p => defineName (declare acc p) p) (beginScope s₁)
      let s₃ := resolveStmts fl s₂ f.Body
      let s₄ := endScope s₃
      { s₄ with currentFunctionScope := enclosing }

termination_by structural fl => fl
/-- `Resolver.resolveExpr` (with the per-node helpers of
src/unnamed/part_000 inlined as match cases; the `SuperExpr` case is
absent from the resolver sources under src/ and is modelled from the
specification). -/
def resolveExpr : Nat → RState → Expr → RState
  | 0, s, _ => s
  | fl + 1, s, e =>
      match e with
      | .Lit _ => s
      | .GroupingExpr inner => resolveExpr fl s inner
      | .UnaryExpr _ inner => resolveExpr fl s inner
      | .BinaryExpr l _ r => resolveExpr fl (resolveExpr fl s l) r
      | .LogicalExpr l _ r => resolveExpr fl (resolveExpr fl s l) r
      | .VarExpr v =>
          let s₁ :=
            match s.scopes with
            | [] => s
            | sc :: _ =>
                match sc.lookup v.Name.lexeme with
                | some false =>
                    reportError s v.Name
                      "Can't read local variable in its own initializer"
                | _ => s
          resolveLocal s₁ v.nid v.Name
      | .AssignExpr name value nid =>
          resolveLocal (resolveExpr fl s value) nid name
      | .CallExpr callee _ args => resolveExprs fl (resolveExpr fl s callee) args
      | .ThisExpr kw nid =>
          let s₁ :=
            if s.currentClassScope = .outsideClass then
              reportError s kw "can't use 'this' outside of a class."
            else s
          resolveLocal s₁ nid kw
      | .SuperExpr kw _ nid =>
          let s₁ :=
            if s.currentClassScope = .outsideClass then
              reportError s kw "Can't use 'super' outside of a class."
            else if s.currentClassScope = .inClass then
              reportError s kw "Can't use 'super' in a class with no superclass."
            else s
          resolveLocal s₁ nid kw
      | .GetExpr obj _ => resolveExpr fl s obj
      | .SetExpr obj _ value => resolveExpr fl (resolveExpr fl s value) obj

termination_by structural fl => fl
/-- Resolve the arguments of a call, in order. -/
def resolveExprs : Nat → RState → List Expr → RState
  | 0, s, _ => s
  | _ + 1, s, [] => s
  | fl + 1, s, e :: rest => resolveExprs fl (resolveExpr fl s e) rest
termination_by structural fl => fl
end

/-- The initial resolver state (`NewResolver`). -/
def initRState : RState :=
  ⟨[], [], .outsideFunction, .outsideClass, false, []⟩

/-- The initial interpreter state (`interp.New`): a globals frame holding
the built-in `clock`, empty heaps and sinks, at ambient Unix time
`now`. -/
def newSt (now : Int) : St :=
  ⟨[⟨[("clock", .vclock)], none⟩], [], [], [], [], [], [], now⟩

/-- A fresh interpreter (`interp.New`). -/
def newInterp (now : Int) : Interp :=
  ⟨newSt now, false, false⟩

/-- `Interp.Run` from the point where the statement list exists (the
scanner and parser are not part of the verified properties): resolve;
the resolver's diagnostics go to the configured error writer; when the
resolver reported an error, set the compile-error flag and skip
evaluation; otherwise interpret with the resolution table. -/
def runStmts (fl : Nat) (i : Interp) (stmts : List Stmt) : Option Interp :=
  let rs := resolveStmts fl initRState stmts
  let i₁ := { i with st := { i.st with errW := i.st.errW ++ rs.errW } }
  if rs.hadError then some { i₁ with hadCompileError := true }
  else interpret fl ⟨rs.locals⟩ i₁ stmts

/-- Read a name in one specific frame (no chain walk, no zero-value
defaulting); used to state frame-content hypotheses. -/
def envLook (st : St) (envId : Nat) (name : String) : Option Val :=
  (st.envs.get? envId).bind (fun fr => assocGet fr.values name)

/-- Resolver-state extension: the second state has at least the errors of
the first (the error sink only grows and the error flag is never
reset). -/
def RExt (a b : RState) : Prop :=
  (a.hadError = true → b.hadError = true) ∧ ∃ t, b.errW = a.errW ++ t

/-- An identifier token on a given line (shorthand for examples). -/
def idT (s : String) (l : Nat) : Token :=
  ⟨.IdentifierToken, s, "", l⟩

/-- Example: the statement `print 1;`. -/
def c1Body : Stmt :=
  .PrintStmt (.Lit (.numL (.fin 1)))

/-- Example program: `print 1; true + 1; print 2;` — the second statement
raises a runtime error on line 2. -/
def c2prog : List Stmt :=
  [ .PrintStmt (.Lit (.numL (.fin 1))),
    .ExprStmt (.BinaryExpr (.Lit (.boolL true)) ⟨.PlusToken, "+", "", 2⟩
      (.Lit (.numL (.fin 1)))),
    .PrintStmt (.Lit (.numL (.fin 2))) ]

/-- The interpreter state after running `c2prog`: the first print reached
the output writer, the runtime diagnostic went to the process standard
output in the format "msg newline [line 2]", the configured error writer
received nothing, and the runtime-error flag is set. -/
def c2result : Interp :=
  ⟨⟨[⟨[("clock", .vclock)], none⟩], [], [], [], ["1\n"], [],
    ["Operands must be two numbers or at least one string.\n[line 2]\n"], 1700000000⟩,
   false, true⟩

/-- Example: the call expression `clock()` (the callee resolves against
the globals frame). -/
def clockCallE (n : Nat) : Expr :=
  .CallExpr (.VarExpr ⟨idT "clock" 1, n⟩) ⟨.RightParenToken, ")", "", 1⟩ []

/-- The minus token of the example `clock() - clock()`. -/
def c3MinusTok : Token :=
  ⟨.MinusToken, "-", "", 1⟩

/-- Example state for C4: globals hold `clock` and `x = 0`. -/
def c4st : St :=
  ⟨[⟨[("clock", .vclock), ("x", .vnum (.fin 0))], none⟩], [], [], [], [], [], [], 0⟩

/-- The closing-paren token of the C4 example call. -/
def c4Paren : Token :=
  ⟨.RightParenToken, ")", "", 3⟩

/-- Example: the call `"notfun"(x = 1)` — a non-callable callee with an
argument whose evaluation has a visible side effect. -/
def c4expr : Expr :=
  .CallExpr (.Lit (.strL "notfun")) c4Paren
    [.AssignExpr (idT "x" 3) (.Lit (.numL (.fin 1))) 9]

/-- The state after the C4 example: the argument's assignment wrote
`x = 1` even though the call failed. -/
def c4stAfter : St :=
  ⟨[⟨[("clock", .vclock), ("x", .vnum (.fin 1))], none⟩], [], [], [], [], [], [], 0⟩

/-- Example: the class declaration `class Bar < Bar {}` on line 1. -/
def c5stmt : Stmt :=
  .ClassDeclStmt (idT "Bar" 1) (some ⟨idT "Bar" 1, 11⟩) []

/-- Example: the declaration of a method `init() { return; }`. -/
def initDecl : FunDecl :=
  .mk (idT "init" 1) [] [.ReturnStmt ⟨.ReturnToken, "return", "", 1⟩ none]

/-- Example state holding the class `Boat { init() { return; } }`:
function heap slot 0 is the initializer (capturing the globals frame),
class heap slot 0 is Boat. -/
def stBoat : St :=
  ⟨[⟨[("clock", .vclock)], none⟩], [⟨initDecl, 0, true⟩],
   [⟨"Boat", none, [("init", 0)]⟩], [], [], [], [], 0⟩

/-- The run of the C6 witness: calling the class Boat. -/
def c6run : Res Val :=
  callClass 10 ⟨[]⟩ stBoat 0 []

/-- The state resulting from the C6 witness run. -/
def c6resSt : St :=
  match c6run with
  | .norm _ s => s
  | _ => stBoat

/-- The value of one field of one instance (for stating field-creation
properties). -/
def instFieldVal (st : St) (r : Nat) (name : String) : Option Val :=
  (st.insts.get? r).bind (fun i => assocGet i.fields name)

/-- The token `==` for the C8 witness. -/
def c8EqTok : Token :=
  ⟨.EqualEqualToken, "==", "", 1⟩

/-- The token `and` for the C7 witness. -/
def c7AndTok : Token :=
  ⟨.AndToken, "and", "", 1⟩

/-- Example state for C10: an instance of Boat whose field `name` holds
the string "Ada". -/
def c10st : St :=
  { stBoat with insts := [⟨0, [("name", .vstr "Ada")]⟩] }

/-- A class declaration whose superclass name equals the class name:
`class <name> < <name> { <methods> }`, with the class name on line l1 and
the superclass name on line l2. -/
def c5class (name : String) (l1 l2 nid : Nat) (methods : List FunDecl) : Stmt :=
  .ClassDeclStmt (idT name l1) (some ⟨idT name l2, nid⟩) methods

/-- The self-inheritance diagnostic for class name `name` reported at
line `l`. -/
def c5msg (name : String) (l : Nat) : String :=
  "[line " ++ toString l ++ "] Error " ++ ("at '" ++ name ++ "'") ++ ": " ++
    "A class can't inherit from itself." ++ "\n"

theorem whileTruePrint_no_norm (fl : Nat) :
    ∀ (ctx : Ctx) (envId : Nat) (st s : St),
      execute fl ctx envId st (Stmt.WhileStmt (.Lit (.boolL true)) c1Body) ≠
        Res.norm () s := by
  induction fl with
  | zero =>
      intro ctx envId st s h
      simp [execute] at h
  | succ fl ih =>
      intro ctx envId st s h
      cases fl with
      | zero =>
          simp [execute, evaluate] at h
      | succ fl' =>
          rw [execute] at h
          simp only [evaluate, litToVal, isTruthy] at h
          cases hb : execute (fl' + 1) ctx envId st c1Body with
          | norm u st₂ =>
              rw [hb] at h
              exact ih ctx envId st₂ s h
          | ret v s₁ => rw [hb] at h; simp at h
          | err t m s₁ => rw [hb] at h; simp at h
          | crash => rw [hb] at h; simp at h
          | fuel => rw [hb] at h; simp at h

/-- C1: for-loop desugaring.  The parser's rewrite of
`for (I; C; U) B` matches `{ I; while (C) { B; U; } }` only when the
condition clause is present: a missing condition is not replaced by the
literal `true` — the `While` node is skipped entirely — so
`for (;;) B` executes B exactly once instead of repeatedly forever.
The conjuncts show: (1) the source desugaring of `for (;;) B` is just
`B`; (2) the specification's desugaring is `while (true) B`; (3) running
the source result of `for (;;) print 1;` terminates after printing "1"
once; (4) running the specification's result never terminates
normally. -/
theorem glox_c1_for_missing_condition :
    (∀ B : Stmt, forDesugar none none none B = B) ∧
    (∀ B : Stmt, forDesugarSpec none none none B =
      Stmt.WhileStmt (.Lit (.boolL true)) B) ∧
    (execute 8 ⟨[]⟩ 0 (newSt 0) (forDesugar none none none c1Body) =
      Res.norm () { newSt 0 with outW := ["1\n"] }) ∧
    (∀ (fl : Nat) (ctx : Ctx) (envId : Nat) (st s : St),
      execute fl ctx envId st (forDesugarSpec none none none c1Body) ≠
        Res.norm () s) := by
  refine ⟨fun B => rfl, fun B => rfl, rfl, ?_⟩
  intro fl ctx envId st s
  exact whileTruePrint_no_norm fl ctx envId st s

/-- C2: runtime-error reporting.  Running `print 1; true + 1; print 2;`
raises the runtime error on line 2; the diagnostic has the exact format
"msg newline [line 2]" and execution of the remaining statements of this
run stops (the second print never happens) while a later run on the same
interpreter still executes — but the diagnostic is written with a bare
`fmt.Printf` to the process standard output (`stdW`), not to the
configured error writer (`errW`), which stays empty, contradicting the
claim's designated writer. -/
theorem glox_c2_runtime_error_to_stdout :
    interpret 20 ⟨[]⟩ (newInterp 1700000000) c2prog = some c2result ∧
    c2result.st.outW = ["1\n"] ∧
    c2result.st.stdW =
      ["Operands must be two numbers or at least one string.\n[line 2]\n"] ∧
    c2result.st.errW = [] ∧
    c2result.hadRuntimeError = true ∧
    interpret 20 ⟨[]⟩ c2result [.PrintStmt (.Lit (.numL (.fin 3)))] =
      some { c2result with st := { c2result.st with outW := ["1\n", "3\n"] } } :=
  ⟨rfl, rfl, rfl, rfl, rfl, rfl⟩

/-- C3: the built-in clock.  `clock()` returns a Go int64 (`vint`,
`time.Now().Unix()`), which is not the lox number variant (`vnum`, a
float64): `isNumber` rejects it, and consequently `clock() - clock()`
raises "Operand must be a number." instead of evaluating to a number —
contradicting the claim (and the repository's own Example test of the
library clock). -/
theorem glox_c3_clock_not_a_number :
    evaluate 20 ⟨[]⟩ 0 (newSt 1700000000) (clockCallE 1) =
      Res.norm (Val.vint 1700000000) (newSt 1700000000) ∧
    isNumber (Val.vint 1700000000) = false ∧
    evaluate 20 ⟨[]⟩ 0 (newSt 1700000000)
        (.BinaryExpr (clockCallE 1) c3MinusTok (clockCallE 2)) =
      Res.err c3MinusTok "Operand must be a number." (newSt 1700000000) :=
  ⟨rfl, rfl, rfl⟩

/-- C4 counterexample: evaluating `"notfun"(x = 1)` with global `x = 0`
raises "Can only call functions and classes." only after the argument
was evaluated: the final state records `x = 1`, so the argument's side
effect did occur for a non-callable callee — the claim's assertion that
the error is raised before any argument expression is evaluated is
false at this input. -/
theorem glox_c4_counterexample :
    evaluate 20 ⟨[]⟩ 0 c4st c4expr =
      Res.err c4Paren "Can only call functions and classes." c4stAfter ∧
    envLook c4st 0 "x" = some (Val.vnum (.fin 0)) ∧
    envLook c4stAfter 0 "x" = some (Val.vnum (.fin 1)) ∧
    c4stAfter ≠ c4st := by
  refine ⟨rfl, rfl, rfl, ?_⟩
  intro h
  have := congrArg (fun st => envLook st 0 "x") h
  simp [envLook, c4st, c4stAfter, assocGet] at this

/-- C4 (amended): evaluating a call evaluates the callee, then evaluates
all argument expressions left-to-right — their side effects occur even
when the callee is not callable — and only then checks callability,
raising "Can only call functions and classes." for a non-callable
callee, and then arity, raising "Expected N arguments but got M." on
mismatch before invoking. -/
theorem glox_c4_call_order (fl : Nat) (ctx : Ctx) (envId : Nat) (st : St)
    (callee : Expr) (paren : Token) (args : List Expr) (vc : Val)
    (st₁ : St) (vs : List Val) (st₂ : St)
    (h1 : evaluate fl ctx envId st callee = .norm vc st₁)
    (h2 : evalArgs fl ctx envId st₁ args = .norm vs st₂) :
    ((∀ r, vc ≠ .vfun r) → (∀ r, vc ≠ .vclass r) → vc ≠ .vclock →
      evaluate (fl + 1) ctx envId st (.CallExpr callee paren args) =
        .err paren "Can only call functions and classes." st₂) ∧
    (∀ fr f, vc = .vfun fr → st₂.funs.get? fr = some f →
      vs.length ≠ f.decl.Params.length →
      evaluate (fl + 1) ctx envId st (.CallExpr callee paren args) =
        .err paren ("Expected " ++ toString f.decl.Params.length ++
          " arguments but got " ++ toString vs.length ++ ".") st₂) ∧
    (∀ fr f, vc = .vfun fr → st₂.funs.get? fr = some f →
      vs.length = f.decl.Params.length →
      evaluate (fl + 1) ctx envId st (.CallExpr callee paren args) =
        callFunction fl ctx st₂ f vs) := by
  refine ⟨?_, ?_, ?_⟩
  · intro hf hc hk
    cases vc with
    | vfun r => exact absurd rfl (hf r)
    | vclass r => exact absurd rfl (hc r)
    | vclock => exact absurd rfl hk
    | vnil => simp only [evaluate]; rw [h1]; simp only []; rw [h2]
    | vbool b => simp only [evaluate]; rw [h1]; simp only []; rw [h2]
    | vnum x => simp only [evaluate]; rw [h1]; simp only []; rw [h2]
    | vstr s => simp only [evaluate]; rw [h1]; simp only []; rw [h2]
    | vint n => simp only [evaluate]; rw [h1]; simp only []; rw [h2]
    | vinst r => simp only [evaluate]; rw [h1]; simp only []; rw [h2]
  · intro fr f hv hget hne
    subst hv
    simp only [evaluate]
    rw [h1]
    simp only []
    rw [h2]
    simp only [hget, if_pos hne]
  · intro fr f hv hget heq
    subst hv
    simp only [evaluate]
    rw [h1]
    simp only []
    rw [h2]
    simp only [hget]
    rw [if_neg]
    simp [heq]

/-- C4 witness: the amended theorem applied to the concrete call
`"s"()`: the callee is a string, so after evaluating the (empty)
argument list the call raises "Can only call functions and classes.". -/
theorem glox_c4_call_order_witness :
    evaluate 2 ⟨[]⟩ 0 (newSt 0) (.CallExpr (.Lit (.strL "s")) c4Paren []) =
      Res.err c4Paren "Can only call functions and classes." (newSt 0) :=
  (glox_c4_call_order 1 ⟨[]⟩ 0 (newSt 0) (.Lit (.strL "s")) c4Paren []
      (.vstr "s") (newSt 0) [] (newSt 0) rfl rfl).1
    (fun _ h => Val.noConfusion h) (fun _ h => Val.noConfusion h)
    (fun h => Val.noConfusion h)

theorem assocGet_assocSet (l : List (String × Val)) (k : String) (v : Val) :
    assocGet (assocSet l k v) k = some v := by
  induction l with
  | nil => simp [assocSet, assocGet]
  | cons p rest ih =>
      by_cases h : p.1 = k
      · simp [assocSet, assocGet, h]
      · simp [assocSet, assocGet, h, ih]

theorem set_concat_length {α : Type} (l : List α) (a b : α) :
    (l ++ [a]).set l.length b = l ++ [b] := by
  induction l with
  | nil => rfl
  | cons x rest ih => simp [List.set, ih]

/-- C7: short-circuit evaluation of the logical operators.  When the
left operand of `and` is falsey, or the left operand of `or` is truthy,
the result is the left value unchanged and the right operand is never
evaluated (the state is exactly the post-left state, for every right
expression); otherwise the result is the evaluation of the right
operand. -/
theorem glox_c7_short_circuit (fl : Nat) (ctx : Ctx) (envId : Nat) (st : St)
    (l r : Expr) (op : Token) (vl : Val) (st₁ : St)
    (h : evaluate fl ctx envId st l = .norm vl st₁) :
    (op.ttype = .AndToken → isTruthy vl = false →
      evaluate (fl + 1) ctx envId st (.LogicalExpr l op r) = .norm vl st₁) ∧
    (op.ttype = .OrToken → isTruthy vl = true →
      evaluate (fl + 1) ctx envId st (.LogicalExpr l op r) = .norm vl st₁) ∧
    (op.ttype = .AndToken → isTruthy vl = true →
      evaluate (fl + 1) ctx envId st (.LogicalExpr l op r) =
        evaluate fl ctx envId st₁ r) ∧
    (op.ttype = .OrToken → isTruthy vl = false →
      evaluate (fl + 1) ctx envId st (.LogicalExpr l op r) =
        evaluate fl ctx envId st₁ r) := by
  refine ⟨?_, ?_, ?_, ?_⟩ <;> intro hop ht <;>
    simp only [evaluate] <;> rw [h] <;> simp only [hop, ht] <;> rfl

/-- C7 witness: `false and (x = 5)` yields false with the state
untouched — the assignment in the right operand never runs. -/
theorem glox_c7_short_circuit_witness :
    evaluate 2 ⟨[]⟩ 0 c4st
        (.LogicalExpr (.Lit (.boolL false)) c7AndTok
          (.AssignExpr (idT "x" 1) (.Lit (.numL (.fin 5))) 31)) =
      Res.norm (Val.vbool false) c4st :=
  (glox_c7_short_circuit 1 ⟨[]⟩ 0 c4st (.Lit (.boolL false))
    (.AssignExpr (idT "x" 1) (.Lit (.numL (.fin 5))) 31) c7AndTok
    (.vbool false) c4st rfl).1 rfl rfl

/-- C8: equality.  `isEqual` (the implementation of `==`) is true on
`x == x` for every value other than the NaN number, `nil == nil` holds,
values of different dynamic kinds always compare unequal, and the
binary operators `==` and `!=` evaluate to `isEqual` and its boolean
negation respectively. -/
theorem glox_c8_equality :
    (∀ v : Val, v ≠ .vnum .nan → isEqual v v = true) ∧
    (isEqual .vnil .vnil = true) ∧
    (∀ v w : Val, v.kindTag ≠ w.kindTag → isEqual v w = false) ∧
    (∀ (fl : Nat) (ctx : Ctx) (envId : Nat) (st : St) (l : Expr) (op : Token)
      (r : Expr) (vl : Val) (st₁ : St) (vr : Val) (st₂ : St),
      evaluate fl ctx envId st l = .norm vl st₁ →
      evaluate fl ctx envId st₁ r = .norm vr st₂ →
      (op.ttype = .EqualEqualToken →
        evaluate (fl + 1) ctx envId st (.BinaryExpr l op r) =
          .norm (.vbool (isEqual vl vr)) st₂) ∧
      (op.ttype = .BangEqualToken →
        evaluate (fl + 1) ctx envId st (.BinaryExpr l op r) =
          .norm (.vbool (!isEqual vl vr)) st₂)) := by
  refine ⟨?_, rfl, ?_, ?_⟩
  · intro v hv
    cases v with
    | vnum x =>
        cases x with
        | nan => exact absurd rfl hv
        | fin q => simp [isEqual, feq]
    | vnil => rfl
    | vbool b => simp [isEqual]
    | vstr s => simp [isEqual]
    | vint n => simp [isEqual]
    | vclock => rfl
    | vfun a => simp [isEqual]
    | vclass a => simp [isEqual]
    | vinst a => simp [isEqual]
  · intro v w hne
    cases v <;> cases w <;> first | rfl | simp [Val.kindTag] at hne
  · intro fl ctx envId st l op r vl st₁ vr st₂ ha hb
    refine ⟨?_, ?_⟩ <;> intro hop <;>
      simp only [evaluate] <;> rw [ha] <;> simp only [] <;> rw [hb] <;>
      simp only [evaluateBinaryOp, hop]

/-- C8 witness: evaluating `1 == 1` yields true. -/
theorem glox_c8_equality_witness :
    evaluate 2 ⟨[]⟩ 0 (newSt 0)
        (.BinaryExpr (.Lit (.numL (.fin 1))) c8EqTok (.Lit (.numL (.fin 1)))) =
      Res.norm (Val.vbool true) (newSt 0) :=
  (glox_c8_equality.2.2.2 1 ⟨[]⟩ 0 (newSt 0) (.Lit (.numL (.fin 1))) c8EqTok
    (.Lit (.numL (.fin 1))) (.vnum (.fin 1)) (newSt 0) (.vnum (.fin 1)) (newSt 0)
    rfl rfl).1 rfl

/-- C9: evaluation order of a set expression.  Evaluating
`obj.name = value` evaluates the object first; when its value is not a
class instance the runtime error "Only class instances have fields." is
raised with the state exactly as it was after evaluating the object —
for every value expression — so the value expression's side effects
never occur and the failed assignment modifies no program state. -/
theorem glox_c9_set_eval_order (fl : Nat) (ctx : Ctx) (envId : Nat) (st : St)
    (obj : Expr) (name : Token) (value : Expr) (v : Val) (st₁ : St)
    (h : evaluate fl ctx envId st obj = .norm v st₁)
    (hni : ∀ r, v ≠ .vinst r) :
    evaluate (fl + 1) ctx envId st (.SetExpr obj name value) =
      .err name "Only class instances have fields." st₁ := by
  cases v with
  | vinst r => exact absurd rfl (hni r)
  | vnil => simp only [evaluate]; rw [h]
  | vbool b => simp only [evaluate]; rw [h]
  | vnum x => simp only [evaluate]; rw [h]
  | vstr s => simp only [evaluate]; rw [h]
  | vint n => simp only [evaluate]; rw [h]
  | vclock => simp only [evaluate]; rw [h]
  | vfun r => simp only [evaluate]; rw [h]
  | vclass r => simp only [evaluate]; rw [h]

/-- C9 witness: `"s".name = (x = 1)` raises the instance error with the
state untouched — `x` keeps its old value. -/
theorem glox_c9_set_eval_order_witness :
    evaluate 2 ⟨[]⟩ 0 c4st
        (.SetExpr (.Lit (.strL "s")) (idT "name" 3)
          (.AssignExpr (idT "x" 3) (.Lit (.numL (.fin 1))) 9)) =
      Res.err (idT "name" 3) "Only class instances have fields." c4st :=
  glox_c9_set_eval_order 1 ⟨[]⟩ 0 c4st (.Lit (.strL "s")) (idT "name" 3)
    (.AssignExpr (idT "x" 3) (.Lit (.numL (.fin 1))) 9) (.vstr "s") c4st rfl
    (fun _ hv => Val.noConfusion hv)

/-- C10: instance fields.  Assigning to a field always succeeds and
creates the field when absent (conjuncts 1 and 4 — there is no
undefined-field error on the set path); on reads, an existing field
shadows any class method of the same name (conjunct 2); reading a name
that is neither a field nor a method of the class chain raises
"Undefined field or method '<name>'." (conjunct 3). -/
theorem glox_c10_field_set_get :
    (∀ (fl : Nat) (ctx : Ctx) (envId : Nat) (st : St) (obj : Expr)
      (name : Token) (value : Expr) (r : Nat) (v : Val) (st₁ st₂ : St),
      evaluate fl ctx envId st obj = .norm (.vinst r) st₁ →
      evaluate fl ctx envId st₁ value = .norm v st₂ →
      evaluate (fl + 1) ctx envId st (.SetExpr obj name value) =
        .norm v (instSetField st₂ r name.lexeme v)) ∧
    (∀ (st : St) (r : Nat) (name : Token) (inst : InstData) (v : Val),
      st.insts.get? r = some inst →
      assocGet inst.fields name.lexeme = some v →
      instanceGet st r name = .norm v st) ∧
    (∀ (st : St) (r : Nat) (name : Token) (inst : InstData),
      st.insts.get? r = some inst →
      assocGet inst.fields name.lexeme = none →
      findMethod (st.classes.length + 1) st inst.klass name.lexeme = none →
      instanceGet st r name =
        .err name ("Undefined field or method '" ++ name.lexeme ++ "'.") st) ∧
    (∀ (st : St) (r : Nat) (name : String) (inst : InstData) (v : Val),
      st.insts.get? r = some inst →
      instFieldVal (instSetField st r name v) r name = some v) := by
  refine ⟨?_, ?_, ?_, ?_⟩
  · intro fl ctx envId st obj name value r v st₁ st₂ h1 h2
    simp only [evaluate]
    rw [h1]
    simp only []
    rw [h2]
  · intro st r name inst v h1 h2
    simp only [instanceGet, h1, h2]
  · intro st r name inst h1 h2 h3
    simp only [instanceGet, h1, h2, h3]
  · intro st r name inst v h1
    have hlt : r < st.insts.length := by
      by_contra hge
      rw [List.get?_eq_none.mpr (Nat.le_of_not_lt hge)] at h1
      exact Option.noConfusion h1
    simp only [instFieldVal, instSetField, h1]
    rw [List.get?_eq_getElem?, List.getElem?_set_eq_of_lt _ (by simpa using hlt)]
    simp [assocGet_assocSet]

/-- C10 witness: reading the field `name` of a Boat instance that holds
`name = "Ada"` yields "Ada" even though reads fall back to methods. -/
theorem glox_c10_field_set_get_witness :
    instanceGet c10st 0 (idT "name" 1) = Res.norm (Val.vstr "Ada") c10st :=
  glox_c10_field_set_get.2.1 c10st 0 (idT "name" 1) ⟨0, [("name", .vstr "Ada")]⟩
    (.vstr "Ada") rfl rfl

/-- C6: initializers return the bound instance.  (1) A call of any
function whose is-initializer flag is set yields the value bound to
"this" in its closure frame — whether the body returned (with or
without a value is immaterial: the flag overrides the returned value)
or fell off the end — so when that frame still binds "this" to an
instance r at completion, the result is exactly that instance.
(2) Calling a class always returns the freshly created instance,
whatever its `init` did.  (3) Binding a method to an instance (the
path taken both by the class call and by a direct `b.init()` access)
preserves the is-initializer flag and binds "this" to the instance in
the new closure frame.  (4) A non-initializer function whose body falls
off the end (completes normally, without a return unwind) yields
nil. -/
theorem glox_c6_init_returns_this :
    (∀ (fl : Nat) (ctx : Ctx) (st : St) (g : LoxFunction) (args : List Val)
      (v : Val) (st₂ : St) (r : Nat),
      g.isInitializer = true →
      callFunction fl ctx st g args = .norm v st₂ →
      envLook st₂ g.closure "this" = some (.vinst r) →
      v = .vinst r) ∧
    (∀ (fl : Nat) (ctx : Ctx) (st : St) (cref : Nat) (args : List Val)
      (v : Val) (st₂ : St),
      callClass fl ctx st cref args = .norm v st₂ →
      v = .vinst st.insts.length) ∧
    (∀ (st : St) (f : LoxFunction) (r : Nat),
      ((bindFun st f r).1).isInitializer = f.isInitializer ∧
      envLook (bindFun st f r).2 ((bindFun st f r).1).closure "this" =
        some (.vinst r)) ∧
    (∀ (fl : Nat) (ctx : Ctx) (st : St) (f : LoxFunction) (args : List Val)
      (st₂ st₃ : St),
      f.isInitializer = false →
      bindParams { st with envs := st.envs ++ [⟨[], some f.closure⟩] }
        st.envs.length f.decl.Params args = some st₂ →
      execStmts fl ctx st.envs.length st₂ f.decl.Body = .norm () st₃ →
      callFunction (fl + 1) ctx st f args = .norm .vnil st₃) := by
  refine ⟨?_, ?_, ?_, ?_⟩
  · intro fl ctx st g args v st₂ r hinit hcall hthis
    obtain ⟨fr, hfr, hag⟩ : ∃ fr, st₂.envs.get? g.closure = some fr ∧
        assocGet fr.values "this" = some (.vinst r) := by
      simpa [envLook, Option.bind_eq_some] using hthis
    cases fl with
    | zero => simp [callFunction] at hcall
    | succ fl =>
        simp only [callFunction, stNewEnv] at hcall
        split at hcall
        · exact absurd hcall (by simp)
        · split at hcall
          · rw [hinit] at hcall
            simp only [if_true] at hcall
            split at hcall
            · rename_i w hga
              injection hcall with h1 h2
              subst h1
              subst h2
              simp only [envGetAt, envAncestor, hfr, hag] at hga
              simpa using hga.symm
            · exact absurd hcall (by simp)
          · rw [hinit] at hcall
            simp only [if_true] at hcall
            split at hcall
            · rename_i w hga
              injection hcall with h1 h2
              subst h1
              subst h2
              simp only [envGetAt, envAncestor, hfr, hag] at hga
              simpa using hga.symm
            · exact absurd hcall (by simp)
          · exact absurd hcall (by simp)
          · exact absurd hcall (by simp)
          · exact absurd hcall (by simp)
  · intro fl ctx st cref args v st₂ hcall
    cases fl with
    | zero => simp [callClass] at hcall
    | succ fl =>
        simp only [callClass] at hcall
        split at hcall
        · split at hcall
          · exact absurd hcall (by simp)
          · split at hcall
            · injection hcall with h1 h2
              exact h1.symm
            · exact absurd hcall (by simp)
            · exact absurd hcall (by simp)
            · exact absurd hcall (by simp)
            · exact absurd hcall (by simp)
        · injection hcall with h1 h2
          exact h1.symm
  · intro st f r
    refine ⟨rfl, ?_⟩
    simp [bindFun, stNewEnv, envDefine, envLook, List.getElem?_concat_length,
      set_concat_length, assocGet]
  · intro fl ctx st f args st₂ st₃ hni hbp hex
    simp only [callFunction, stNewEnv]
    rw [hbp]
    simp only []
    rw [hex, hni]
    simp

/-- C6 witness: calling the class Boat (whose `init` body is a bare
`return;`) yields the freshly created instance. -/
theorem glox_c6_init_returns_this_witness :
    c6run = Res.norm (Val.vinst stBoat.insts.length) c6resSt := by
  have h : c6run = Res.norm (Val.vinst 0) c6resSt := rfl
  have h2 := glox_c6_init_returns_this.2.1 10 ⟨[]⟩ stBoat 0 [] (Val.vinst 0)
    c6resSt h
  rw [h, ← h2]

theorem RExt_refl (s : RState) : RExt s s :=
  ⟨id, [], by simp⟩

theorem RExt_trans {a b c : RState} (h1 : RExt a b) (h2 : RExt b c) : RExt a c := by
  obtain ⟨m1, t1, e1⟩ := h1
  obtain ⟨m2, t2, e2⟩ := h2
  exact ⟨fun h => m2 (m1 h), t1 ++ t2, by rw [e2, e1, List.append_assoc]⟩

theorem RExt_reportError (s : RState) (t : Token) (m : String) :
    RExt s (reportError s t m) :=
  ⟨fun _ => rfl, _, rfl⟩

theorem RExt_setScopes (s : RState) (sc : List (List (String × Bool))) :
    RExt s { s with scopes := sc } :=
  ⟨id, [], by simp⟩

theorem RExt_setLocals (s : RState) (l : List (Nat × Nat)) :
    RExt s { s with locals := l } :=
  ⟨id, [], by simp⟩

theorem RExt_withClass (s : RState) (c : ClassScopeT) :
    RExt s { s with currentClassScope := c } :=
  ⟨id, [], by simp⟩

theorem RExt_withFun (s : RState) (c : FunctionScopeT) :
    RExt s { s with currentFunctionScope := c } :=
  ⟨id, [], by simp⟩

theorem RExt_ite2 (s a b : RState) (c : Prop) [Decidable c]
    (h1 : RExt s a) (h2 : RExt s b) : RExt s (if c then a else b) := by
  split
  · exact h1
  · exact h2

theorem RExt_declare (s : RState) (n : Token) : RExt s (declare s n) := by
  unfold declare
  split
  · exact RExt_refl s
  · exact RExt_trans
      (RExt_ite2 s (reportError s n "Variable already declared in this scope.") s _
        (RExt_reportError s n _) (RExt_refl s))
      (RExt_setScopes _ _)

theorem RExt_defineName (s : RState) (n : Token) : RExt s (defineName s n) := by
  unfold defineName
  split
  · exact RExt_refl s
  · exact RExt_setScopes _ _

theorem RExt_bindInScope (s : RState) (n : String) : RExt s (bindInScope s n) := by
  unfold bindInScope
  split
  · exact RExt_refl s
  · exact RExt_setScopes _ _

theorem RExt_beginScope (s : RState) : RExt s (beginScope s) :=
  RExt_setScopes s _

theorem RExt_endScope (s : RState) : RExt s (endScope s) :=
  RExt_setScopes s _

theorem RExt_resolveLocal (s : RState) (nid : Nat) (n : Token) :
    RExt s (resolveLocal s nid n) := by
  unfold resolveLocal
  split
  · exact RExt_setLocals _ _
  · exact RExt_refl s

theorem RExt_resolveSuperclassPart (s : RState) (name : Token)
    (sc : Option VarE) : RExt s (resolveSuperclassPart s name sc) := by
  unfold resolveSuperclassPart
  split
  · refine RExt_trans ?_ (RExt_bindInScope _ _)
    refine RExt_trans ?_ (RExt_beginScope _)
    refine RExt_trans ?_ (RExt_withClass _ _)
    exact RExt_ite2 s _ s _ (RExt_reportError s _ _) (RExt_refl s)
  · exact RExt_refl s

theorem RExt_paramsFold (ps : List Token) :
    ∀ s : RState, RExt s (ps.foldl (fun acc p => defineName (declare acc p) p) s) := by
  induction ps with
  | nil => exact fun s => RExt_refl s
  | cons p rest ih =>
      intro s
      refine RExt_trans ?_ (ih (defineName (declare s p) p))
      exact RExt_trans (RExt_declare s p) (RExt_defineName _ p)

set_option maxHeartbeats 1600000 in
theorem resolve_RExt (fl : Nat) :
    (∀ s stmts, RExt s (resolveStmts fl s stmts)) ∧
    (∀ s stmt, RExt s (resolveStmt fl s stmt)) ∧
    (∀ s ms, RExt s (resolveMethods fl s ms)) ∧
    (∀ (s : RState) (f : FunDecl) (ns : FunctionScopeT),
      RExt s (resolveFunction fl s f ns)) ∧
    (∀ s e, RExt s (resolveExpr fl s e)) ∧
    (∀ s es, RExt s (resolveExprs fl s es)) := by
  induction fl with
  | zero =>
      exact ⟨fun s _ => RExt_refl s, fun s _ => RExt_refl s, fun s _ => RExt_refl s,
        fun s _ _ => RExt_refl s, fun s _ => RExt_refl s, fun s _ => RExt_refl s⟩
  | succ fl ih =>
      obtain ⟨ihSs, ihS, ihM, ihF, ihE, ihEs⟩ := ih
      refine ⟨?_, ?_, ?_, ?_, ?_, ?_⟩
      · intro s stmts
        cases stmts with
        | nil => exact RExt_refl s
        | cons st rest => exact RExt_trans (ihS s st) (ihSs _ rest)
      · intro s stmt
        cases stmt with
        | ExprStmt e => exact ihE s e
        | PrintStmt e => exact ihE s e
        | ReturnStmt kw value =>
            cases value with
            | none =>
                simp only [resolveStmt]
                repeat' first
                  | split
                  | refine RExt_trans ?_ (RExt_reportError _ _ _)
                  | exact RExt_refl _
            | some e =>
                simp only [resolveStmt]
                repeat' first
                  | split
                  | refine RExt_trans ?_ (ihE _ _)
                  | refine RExt_trans ?_ (RExt_reportError _ _ _)
                  | exact RExt_refl _
        | IfStmt cond thenB elseB =>
            cases elseB with
            | none => exact RExt_trans (ihE s cond) (ihS _ thenB)
            | some eb =>
                exact RExt_trans (RExt_trans (ihE s cond) (ihS _ thenB)) (ihS _ eb)
        | WhileStmt cond body => exact RExt_trans (ihE s cond) (ihS _ body)
        | VarDeclStmt n initializer =>
            cases initializer with
            | none => exact RExt_trans (RExt_declare s n) (RExt_defineName _ n)
            | some e =>
                exact RExt_trans
                  (RExt_trans (RExt_declare s n) (ihE _ e)) (RExt_defineName _ n)
        | BlockStmt stmts =>
            exact RExt_trans (RExt_trans (RExt_beginScope s) (ihSs _ stmts))
              (RExt_endScope _)
        | FunDeclStmt f =>
            exact RExt_trans
              (RExt_trans (RExt_declare s f.Name) (RExt_defineName _ f.Name))
              (ihF _ f .inFunction)
        | ClassDeclStmt n superclass methods =>
            simp only [resolveStmt]
            refine RExt_trans ?_ (RExt_withClass _ _)
            cases superclass with
            | none =>
                refine RExt_trans ?_ (ihM _ _)
                refine RExt_trans ?_ (RExt_bindInScope _ _)
                refine RExt_trans ?_ (RExt_beginScope _)
                refine RExt_trans ?_ (RExt_resolveSuperclassPart _ _ _)
                refine RExt_trans ?_ (RExt_defineName _ _)
                refine RExt_trans ?_ (RExt_declare _ _)
                exact RExt_refl _
            | some sv =>
                refine RExt_trans ?_ (RExt_endScope _)
                refine RExt_trans ?_ (RExt_endScope _)
                refine RExt_trans ?_ (ihM _ _)
                refine RExt_trans ?_ (RExt_bindInScope _ _)
                refine RExt_trans ?_ (RExt_beginScope _)
                refine RExt_trans ?_ (RExt_resolveSuperclassPart _ _ _)
                refine RExt_trans ?_ (RExt_defineName _ _)
                refine RExt_trans ?_ (RExt_declare _ _)
                exact RExt_refl _
      · intro s ms
        cases ms with
        | nil => exact RExt_refl s
        | cons m rest => exact RExt_trans (ihF s m _) (ihM _ rest)
      · intro s f ns
        simp only [resolveFunction]
        refine RExt_trans ?_ (RExt_withFun _ _)
        refine RExt_trans ?_ (RExt_endScope _)
        refine RExt_trans ?_ (ihSs _ _)
        refine RExt_trans ?_ (RExt_paramsFold _ _)
        refine RExt_trans ?_ (RExt_beginScope _)
        refine RExt_trans ?_ (RExt_withFun _ _)
        exact RExt_refl _
      · intro s e
        cases e with
        | Lit v => exact RExt_refl s
        | GroupingExpr inner => exact ihE s inner
        | UnaryExpr op inner => exact ihE s inner
        | BinaryExpr l op r => exact RExt_trans (ihE s l) (ihE _ r)
        | LogicalExpr l op r => exact RExt_trans (ihE s l) (ihE _ r)
        | VarExpr v =>
            refine RExt_trans ?_ (RExt_resolveLocal _ _ _)
            repeat' first
              | split
              | refine RExt_trans ?_ (RExt_reportError _ _ _)
              | exact RExt_refl _
        | AssignExpr n value nid =>
            exact RExt_trans (ihE s value) (RExt_resolveLocal _ nid n)
        | CallExpr callee paren args =>
            exact RExt_trans (ihE s callee) (ihEs _ args)
        | ThisExpr kw nid =>
            refine RExt_trans ?_ (RExt_resolveLocal _ _ _)
            repeat' first
              | split
              | refine RExt_trans ?_ (RExt_reportError _ _ _)
              | exact RExt_refl _
        | SuperExpr kw m nid =>
            refine RExt_trans ?_ (RExt_resolveLocal _ _ _)
            repeat' first
              | split
              | refine RExt_trans ?_ (RExt_reportError _ _ _)
              | exact RExt_refl _
        | GetExpr obj n => exact ihE s obj
        | SetExpr obj n value => exact RExt_trans (ihE s value) (ihE _ obj)
      · intro s es
        cases es with
        | nil => exact RExt_refl s
        | cons e rest => exact RExt_trans (ihE s e) (ihEs _ rest)

/-- C5: self-inheritance.  For every class declaration whose superclass
name equals the class name, the resolver (its superclass handling
modelled from the specification, see `resolveSuperclassPart`) reports
"[line N] Error at '<name>': A class can't inherit from itself." as its
first diagnostic on the configured error stream and sets the error
flag, and the run sets the compile-error flag and skips evaluation: the
resulting interpreter differs from a fresh one only by the error-stream
content and the compile-error flag (no output, no state change, no
runtime error). -/
theorem glox_c5_self_inheritance (fl : Nat) (name : String) (l1 l2 nid : Nat)
    (methods : List FunDecl) (now : Int) (h : 2 ≤ fl) :
    (resolveStmts fl initRState [c5class name l1 l2 nid methods]).hadError = true ∧
    (resolveStmts fl initRState [c5class name l1 l2 nid methods]).errW.head? =
      some (c5msg name l2) ∧
    runStmts fl (newInterp now) [c5class name l1 l2 nid methods] =
      some ⟨{ newSt now with
        errW := (resolveStmts fl initRState [c5class name l1 l2 nid methods]).errW },
        true, false⟩ := by
  obtain ⟨k, rfl⟩ : ∃ k, fl = k + 2 := ⟨fl - 2, by omega⟩
  have hstep : resolveStmts (k + 2) initRState [c5class name l1 l2 nid methods] =
      { endScope (endScope (resolveMethods k
          ⟨[[("this", true)], [("super", true)]], [], .outsideFunction, .inSubclass,
           true, [c5msg name l2]⟩ methods)) with
          currentClassScope := .outsideClass } := by
    simp [resolveStmts, resolveStmt, c5class, idT, initRState, declare,
      defineName, beginScope, bindInScope, resolveSuperclassPart, reportError,
      scopeSet, c5msg]
  obtain ⟨hmono, t, ht⟩ := (resolve_RExt k).2.2.1
    ⟨[[("this", true)], [("super", true)]], [], .outsideFunction, .inSubclass,
     true, [c5msg name l2]⟩ methods
  refine ⟨?_, ?_, ?_⟩
  · rw [hstep]
    simpa [endScope] using hmono rfl
  · rw [hstep]
    simp [endScope]
    rw [ht]
    simp
  · simp only [runStmts]
    rw [hstep]
    simp [endScope, hmono rfl, newInterp, newSt]

/-- C5 witness: `class Bar < Bar {}` on line 1 — the resolver reports
the self-inheritance diagnostic, the compile-error flag is set and
evaluation is skipped. -/
theorem glox_c5_self_inheritance_witness :
    (resolveStmts 2 initRState [c5class "Bar" 1 1 11 []]).hadError = true ∧
    (resolveStmts 2 initRState [c5class "Bar" 1 1 11 []]).errW.head? =
      some (c5msg "Bar" 1) ∧
    runStmts 2 (newInterp 0) [c5class "Bar" 1 1 11 []] =
      some ⟨{ newSt 0 with
        errW := (resolveStmts 2 initRState [c5class "Bar" 1 1 11 []]).errW },
        true, false⟩ :=
  glox_c5_self_inheritance 2 "Bar" 1 1 11 [] 0 (by norm_num)

end Glox
